import Mathlib

/-!
Verification development for the interactive data-entry engine of the
`tagg` repository (sources: `src/editor.rs`, `src/track.rs`, `src/album.rs`,
`src/counter.rs`).

Shallow embedding conventions:
- Rust `u32` values are modelled as `Nat`; the 32-bit range is enforced by the
  parsing function (as in Rust, where `str::parse::<u32>` rejects overflow).
- Rust `i32` values are modelled as `Int`, with the range enforced by parsing.
- `str::trim` is modelled by `strTrim` below (whitespace per `Char.isWhitespace`;
  all inputs of interest are ASCII, where the two notions agree).
- Mutating methods (`set_value(&mut self, ..) -> Result<(), E>`) become pure
  functions returning `Except E Builder`: the Rust error path returns via `?`
  before any field assignment, so on error the builder is unchanged, which the
  functional embedding expresses by the caller reusing the old builder.
- The `rustyline` line read is modelled by a script of `ReadEvent`s:
  `line s` for `Ok(s)`, `interrupted` for `Err(Interrupted) | Err(Eof)`, and
  `failure` for any other readline error (propagated via `?` in `Editor::run`).
- `Editor::run` (generic over state and builder in Rust) is embedded twice,
  specialised to the track and album instantiations, as `runTrack`/`runAlbum`.
  Besides the final outcome, the embedding records the list of prompts shown
  (key and default-value hint, in order) and whether `build()` was invoked.
-/

/-! ## String trimming (model of Rust `str::trim`) -/

/-- Removes leading and trailing whitespace characters from a character list. -/
def trimChars (cs : List Char) : List Char :=
  (((cs.dropWhile Char.isWhitespace).reverse).dropWhile Char.isWhitespace).reverse

/-- Models Rust `str::trim`. -/
def strTrim (s : String) : String :=
  ⟨trimChars s.data⟩

/-! ## Integer parsing (model of Rust `str::parse::<u32>` / `str::parse::<i32>`) -/

/-- Kind of a Rust `std::num::ParseIntError`. -/
inductive IntErrorKind where
  | empty
  | invalidDigit
  | posOverflow
  | negOverflow
  deriving DecidableEq, Repr

/-- Models Rust `std::num::ParseIntError`. -/
structure ParseIntError where
  kind : IntErrorKind
  deriving DecidableEq, Repr

/-- Numeric value of a decimal digit character. -/
def digitVal (c : Char) : Nat := c.toNat - '0'.toNat

/-- Value of a list of decimal digit characters, most significant first. -/
def digitsVal (cs : List Char) : Nat :=
  cs.foldl (fun acc c => acc * 10 + digitVal c) 0

/-- Models Rust `str::parse::<u32>` (= `u32::from_str_radix(s, 10)`):
optional leading `+`; a leading `-` is an invalid digit for an unsigned type;
then one or more ASCII decimal digits; the value must fit in 32 bits. -/
def parseU32 (s : String) : Except ParseIntError Nat :=
  match s.data with
  | [] => .error ⟨.empty⟩
  | c :: rest =>
    if c = '-' then .error ⟨.invalidDigit⟩
    else
      let ds := if c = '+' then rest else c :: rest
      if ds = [] then .error ⟨.invalidDigit⟩
      else if ds.all Char.isDigit then
        let n := digitsVal ds
        if n < 2 ^ 32 then .ok n else .error ⟨.posOverflow⟩
      else .error ⟨.invalidDigit⟩

/-- Models Rust `str::parse::<i32>`: optional leading `+` or `-`, then one or
more ASCII decimal digits; the value must fit in a signed 32-bit integer. -/
def parseI32 (s : String) : Except ParseIntError Int :=
  match s.data with
  | [] => .error ⟨.empty⟩
  | c :: rest =>
    let neg := c = '-'
    let ds := if c = '+' ∨ c = '-' then rest else c :: rest
    if ds = [] then .error ⟨.invalidDigit⟩
    else if ds.all Char.isDigit then
      let n := digitsVal ds
      if neg then
        if n ≤ 2 ^ 31 then .ok (-(n : Int)) else .error ⟨.negOverflow⟩
      else
        if n < 2 ^ 31 then .ok (n : Int) else .error ⟨.posOverflow⟩
    else .error ⟨.invalidDigit⟩

/-! ## Editor core (model of `src/editor.rs`) -/

/-- Models `editor.rs` `DefaultValue`: text placed before and after the cursor
when pre-filling a prompt. -/
structure DefaultValue where
  left : String
  right : String
  deriving DecidableEq, Repr

/-- Models `impl From<&Option<T>> for DefaultValue`: a known value is shown
before the cursor (`Self::left(format!("{}", value))`), an unknown one gives
an empty hint (`Self::right("")`). -/
def DefaultValue.ofOption {α : Type} [ToString α] : Option α → DefaultValue
  | some v => ⟨toString v, ""⟩
  | none => ⟨"", ""⟩

/-- Models `editor.rs` `ReadlineInput`. -/
inductive ReadlineInput where
  | data (s : String)
  | back
  | exit
  deriving DecidableEq, Repr

/-- Models the classification of a successfully read line in `Editor::read`:
the line is trimmed, compared against the `COMMAND_BACK` (`":b"`) and
`COMMAND_QUIT` (`":q"`) tokens, and otherwise returned as data. -/
def classify (s : String) : ReadlineInput :=
  let t := strTrim s
  if t = ":b" then .back
  else if t = ":q" then .exit
  else .data t

/-- One event of the line-reading service, as seen by `Editor::read`. -/
inductive ReadEvent where
  | line (s : String)
  | interrupted
  | failure
  deriving DecidableEq, Repr

/-- Final outcome of `Editor::run`, flattening
`Result<EditorOutput<O>, EditorError>`; `noInput` marks exhaustion of the
event script (in Rust the read would block instead). -/
inductive RunOutcome (O E : Type) where
  | finished (o : O)
  | interruptedRun
  | buildFailed (e : E)
  | readFailed
  | noInput
  deriving DecidableEq, Repr

/-- Result of a run: the outcome, the prompts `(key, default hint)` shown in
order, and whether `build()` was invoked. -/
structure RunResult (O E K : Type) where
  outcome : RunOutcome O E
  prompts : List (K × DefaultValue)
  buildCalled : Bool
  deriving DecidableEq, Repr

/-- Records one more prompt at the front of a run result. -/
def withPrompt {O E K : Type} (p : K × DefaultValue) (r : RunResult O E K) :
    RunResult O E K :=
  { r with prompts := p :: r.prompts }

/-! ## Track editor (model of `src/track.rs`) -/

/-- Models `track.rs` `TrackInput` (`u32` as `Nat`). -/
structure TrackInput where
  track_number : Option Nat
  disc_number : Option Nat
  title : Option String
  deriving DecidableEq, Repr

/-- A `TrackInput` with no fields known. -/
def emptyTrackInput : TrackInput := ⟨none, none, none⟩

/-- Models `track.rs` `TrackKey`. -/
inductive TrackKey where
  | trackNumber
  | discNumber
  | title
  deriving DecidableEq, Repr

/-- Models `impl Prompt for TrackKey`. -/
def TrackKey.get_prompt : TrackKey → String
  | .trackNumber => "TRACK NUMBER"
  | .discNumber => "DISC NUMBER"
  | .title => "TITLE"

/-- Models `track.rs` `TrackOutputBuilder`. -/
structure TrackOutputBuilder where
  track_input : TrackInput
  deriving DecidableEq, Repr

/-- Models `track.rs` `TrackOutput`. -/
structure TrackOutput where
  track_number : Nat
  disc_number : Nat
  title : String
  deriving DecidableEq, Repr

/-- Models `track.rs` `TrackInputError` (field-specific parse error). -/
inductive TrackInputError where
  | trackNumber (e : ParseIntError)
  | discNumber (e : ParseIntError)
  deriving DecidableEq, Repr

/-- Models `track.rs` `TrackOutputError` (missing-field error at build). -/
inductive TrackOutputError where
  | trackNumber
  | discNumber
  | title
  deriving DecidableEq, Repr

/-- Models the `Display` message of `TrackOutputError` (`"{} is required"`). -/
def TrackOutputError.message : TrackOutputError → String
  | .trackNumber => "track number is required"
  | .discNumber => "disc number is required"
  | .title => "title is required"

/-- Models `TrackOutputBuilder::set_value`: numeric fields parse the raw text
(`value.parse().map_err(...)?`, so on error no field is assigned); the title
field stores the text as-is. The functional embedding returns the updated
builder. -/
def TrackOutputBuilder.set_value (b : TrackOutputBuilder) (key : TrackKey)
    (value : String) : Except TrackInputError TrackOutputBuilder :=
  match key with
  | .trackNumber =>
    match parseU32 value with
    | .ok n => .ok ⟨{ b.track_input with track_number := some n }⟩
    | .error e => .error (.trackNumber e)
  | .discNumber =>
    match parseU32 value with
    | .ok n => .ok ⟨{ b.track_input with disc_number := some n }⟩
    | .error e => .error (.discNumber e)
  | .title => .ok ⟨{ b.track_input with title := some value }⟩

/-- Models `TrackOutputBuilder::build`: each field is required, checked in
declaration order, the first missing one reported (`ok_or(...)?`). -/
def TrackOutputBuilder.build (b : TrackOutputBuilder) :
    Except TrackOutputError TrackOutput :=
  match b.track_input.track_number with
  | none => .error .trackNumber
  | some tn =>
    match b.track_input.disc_number with
    | none => .error .discNumber
    | some dn =>
      match b.track_input.title with
      | none => .error .title
      | some t => .ok ⟨tn, dn, t⟩

/-- Models `track.rs` `TrackStateKind`. -/
inductive TrackStateKind where
  | trackNumber
  | discNumber
  | title
  | interrupted
  | finished
  deriving DecidableEq, Repr

/-- Models `track.rs` `TrackState`: the state machine holds its own copy of the
track input (used only to derive default hints) plus the current kind. -/
structure TrackState where
  track_input : TrackInput
  kind : TrackStateKind
  deriving DecidableEq, Repr

/-- Models `TrackState::new`: initial state is the first field. -/
def TrackState.init (i : TrackInput) : TrackState := ⟨i, .trackNumber⟩

/-- Models `editor.rs` `StateInput`, specialised to `TrackKey`. -/
inductive TrackStateInput where
  | read (key : TrackKey) (default_value : DefaultValue)
  | interrupted
  | finished
  deriving DecidableEq, Repr

/-- Models `TrackState::get_input`: while on a field, yields the key and a
default hint derived from the state's own copy of the partial record. -/
def TrackState.get_input (st : TrackState) : TrackStateInput :=
  match st.kind with
  | .trackNumber => .read .trackNumber (.ofOption st.track_input.track_number)
  | .discNumber => .read .discNumber (.ofOption st.track_input.disc_number)
  | .title => .read .title (.ofOption st.track_input.title)
  | .interrupted => .interrupted
  | .finished => .finished

/-- Models `TrackState::next`. -/
def TrackState.next (st : TrackState) : TrackState :=
  { st with kind :=
      match st.kind with
      | .trackNumber => .discNumber
      | .discNumber => .title
      | .title => .finished
      | .interrupted => .interrupted
      | .finished => .finished }

/-- Models `TrackState::prev`. -/
def TrackState.prev (st : TrackState) : TrackState :=
  { st with kind :=
      match st.kind with
      | .trackNumber => .trackNumber
      | .discNumber => .trackNumber
      | .title => .discNumber
      | .interrupted => .trackNumber
      | .finished => .title }

/-- Models `TrackState::interrupt`. -/
def TrackState.interrupt (st : TrackState) : TrackState :=
  { st with kind := .interrupted }

/-- Models `TrackState::finish`. -/
def TrackState.finish (st : TrackState) : TrackState :=
  { st with kind := .finished }

/-- Models `Editor::run` at the track instantiation, driven by a finite event
script. Each loop iteration queries `get_input`; a field prompt consumes one
event (recorded in `prompts`); `Interrupted` and `Finished` return, the latter
invoking `build()` (recorded in `buildCalled`). -/
def runTrack (st : TrackState) (b : TrackOutputBuilder)
    (events : List ReadEvent) : RunResult TrackOutput TrackOutputError TrackKey :=
  match st.get_input with
  | .interrupted => ⟨.interruptedRun, [], false⟩
  | .finished =>
    match b.build with
    | .ok o => ⟨.finished o, [], true⟩
    | .error e => ⟨.buildFailed e, [], true⟩
  | .read key dv =>
    match events with
    | [] => ⟨.noInput, [], false⟩
    | e :: rest =>
      match e with
      | .failure => ⟨.readFailed, [(key, dv)], false⟩
      | .interrupted => withPrompt (key, dv) (runTrack st.interrupt b rest)
      | .line s =>
        match classify s with
        | .back => withPrompt (key, dv) (runTrack st.prev b rest)
        | .exit => withPrompt (key, dv) (runTrack st.interrupt b rest)
        | .data v =>
          match b.set_value key v with
          | .error _ => withPrompt (key, dv) (runTrack st b rest)
          | .ok b' => withPrompt (key, dv) (runTrack st.next b' rest)

/-- Models `TrackEditor::new` followed by `run`: the state machine and the
builder are seeded with separate clones of the same input. -/
def runTrackEditor (i : TrackInput) (events : List ReadEvent) :
    RunResult TrackOutput TrackOutputError TrackKey :=
  runTrack (TrackState.init i) ⟨i⟩ events

/-! ## Album editor (model of `src/album.rs`) -/

/-- Models `album.rs` `AlbumInput` (`i32` year as `Int`, `u32` counts as `Nat`). -/
structure AlbumInput where
  artist : Option String
  album_artist : Option String
  album : Option String
  year : Option Int
  total_tracks : Option Nat
  total_discs : Option Nat
  deriving DecidableEq, Repr

/-- Models `#[derive(Default)]` on `AlbumInput`. -/
def emptyAlbumInput : AlbumInput := ⟨none, none, none, none, none, none⟩

/-- Models `album.rs` `AlbumKey`. -/
inductive AlbumKey where
  | artist
  | albumArtist
  | album
  | year
  | totalTracks
  | totalDiscs
  deriving DecidableEq, Repr

/-- Models `impl Prompt for AlbumKey`. -/
def AlbumKey.get_prompt : AlbumKey → String
  | .artist => "ARTIST"
  | .albumArtist => "ALBUM ARTIST"
  | .album => "ALBUM"
  | .year => "YEAR"
  | .totalTracks => "TOTAL TRACKS"
  | .totalDiscs => "TOTAL DISCS"

/-- Models `album.rs` `AlbumOutputBuilder`. -/
structure AlbumOutputBuilder where
  album_input : AlbumInput
  deriving DecidableEq, Repr

/-- Models `album.rs` `AlbumOutput`. -/
structure AlbumOutput where
  artist : String
  album_artist : String
  album : String
  year : Int
  total_tracks : Nat
  total_discs : Nat
  deriving DecidableEq, Repr

/-- Models `album.rs` `AlbumInputError` (field-specific parse error). -/
inductive AlbumInputError where
  | year (e : ParseIntError)
  | totalTracks (e : ParseIntError)
  | totalDiscs (e : ParseIntError)
  deriving DecidableEq, Repr

/-- Models `album.rs` `AlbumOutputError` (missing-field error at build). -/
inductive AlbumOutputError where
  | artist
  | albumArtist
  | album
  | year
  | totalTracks
  | totalDiscs
  deriving DecidableEq, Repr

/-- Models the `Display` message of `AlbumOutputError` (`"{} is required"`). -/
def AlbumOutputError.message : AlbumOutputError → String
  | .artist => "artist is required"
  | .albumArtist => "album artist is required"
  | .album => "album is required"
  | .year => "year is required"
  | .totalTracks => "number of tracks is required"
  | .totalDiscs => "number of discs is required"

/-- Models `AlbumOutputBuilder::set_value`: the three string fields store the
raw text as-is; `year` parses as `i32`, `total_tracks`/`total_discs` as `u32`
(`value.parse().map_err(...)?`, so on error no field is assigned). -/
def AlbumOutputBuilder.set_value (b : AlbumOutputBuilder) (key : AlbumKey)
    (value : String) : Except AlbumInputError AlbumOutputBuilder :=
  match key with
  | .artist => .ok ⟨{ b.album_input with artist := some value }⟩
  | .albumArtist => .ok ⟨{ b.album_input with album_artist := some value }⟩
  | .album => .ok ⟨{ b.album_input with album := some value }⟩
  | .year =>
    match parseI32 value with
    | .ok n => .ok ⟨{ b.album_input with year := some n }⟩
    | .error e => .error (.year e)
  | .totalTracks =>
    match parseU32 value with
    | .ok n => .ok ⟨{ b.album_input with total_tracks := some n }⟩
    | .error e => .error (.totalTracks e)
  | .totalDiscs =>
    match parseU32 value with
    | .ok n => .ok ⟨{ b.album_input with total_discs := some n }⟩
    | .error e => .error (.totalDiscs e)

/-- Models `AlbumOutputBuilder::build`: each field is required, checked in
declaration order, the first missing one reported (`ok_or(...)?`). -/
def AlbumOutputBuilder.build (b : AlbumOutputBuilder) :
    Except AlbumOutputError AlbumOutput :=
  match b.album_input.artist with
  | none => .error .artist
  | some ar =>
    match b.album_input.album_artist with
    | none => .error .albumArtist
    | some aa =>
      match b.album_input.album with
      | none => .error .album
      | some al =>
        match b.album_input.year with
        | none => .error .year
        | some y =>
          match b.album_input.total_tracks with
          | none => .error .totalTracks
          | some tt =>
            match b.album_input.total_discs with
            | none => .error .totalDiscs
            | some td => .ok ⟨ar, aa, al, y, tt, td⟩

/-- Models `album.rs` `AlbumStateKind`. -/
inductive AlbumStateKind where
  | artist
  | albumArtist
  | album
  | year
  | totalTracks
  | totalDiscs
  | interrupted
  | finished
  deriving DecidableEq, Repr

/-- Models `album.rs` `AlbumState`: its own copy of the album input (used only
for default hints) plus the current kind. -/
structure AlbumState where
  album_input : AlbumInput
  kind : AlbumStateKind
  deriving DecidableEq, Repr

/-- Models `AlbumState::new`: initial state is the first field. -/
def AlbumState.init (i : AlbumInput) : AlbumState := ⟨i, .artist⟩

/-- Models `editor.rs` `StateInput`, specialised to `AlbumKey`. -/
inductive AlbumStateInput where
  | read (key : AlbumKey) (default_value : DefaultValue)
  | interrupted
  | finished
  deriving DecidableEq, Repr

/-- Models `AlbumState::get_input`. -/
def AlbumState.get_input (st : AlbumState) : AlbumStateInput :=
  match st.kind with
  | .artist => .read .artist (.ofOption st.album_input.artist)
  | .albumArtist => .read .albumArtist (.ofOption st.album_input.album_artist)
  | .album => .read .album (.ofOption st.album_input.album)
  | .year => .read .year (.ofOption st.album_input.year)
  | .totalTracks => .read .totalTracks (.ofOption st.album_input.total_tracks)
  | .totalDiscs => .read .totalDiscs (.ofOption st.album_input.total_discs)
  | .interrupted => .interrupted
  | .finished => .finished

/-- Models `AlbumState::next`. -/
def AlbumState.next (st : AlbumState) : AlbumState :=
  { st with kind :=
      match st.kind with
      | .artist => .albumArtist
      | .albumArtist => .album
      | .album => .year
      | .year => .totalTracks
      | .totalTracks => .totalDiscs
      | .totalDiscs => .finished
      | .interrupted => .interrupted
      | .finished => .finished }

/-- Models `AlbumState::prev`. -/
def AlbumState.prev (st : AlbumState) : AlbumState :=
  { st with kind :=
      match st.kind with
      | .artist => .artist
      | .albumArtist => .artist
      | .album => .albumArtist
      | .year => .album
      | .totalTracks => .year
      | .totalDiscs => .totalTracks
      | .interrupted => .artist
      | .finished => .totalDiscs }

/-- Models `AlbumState::interrupt`. -/
def AlbumState.interrupt (st : AlbumState) : AlbumState :=
  { st with kind := .interrupted }

/-- Models `AlbumState::finish`. -/
def AlbumState.finish (st : AlbumState) : AlbumState :=
  { st with kind := .finished }

/-- Models `Editor::run` at the album instantiation, driven by a finite event
script (same shape as `runTrack`). -/
def runAlbum (st : AlbumState) (b : AlbumOutputBuilder)
    (events : List ReadEvent) : RunResult AlbumOutput AlbumOutputError AlbumKey :=
  match st.get_input with
  | .interrupted => ⟨.interruptedRun, [], false⟩
  | .finished =>
    match b.build with
    | .ok o => ⟨.finished o, [], true⟩
    | .error e => ⟨.buildFailed e, [], true⟩
  | .read key dv =>
    match events with
    | [] => ⟨.noInput, [], false⟩
    | e :: rest =>
      match e with
      | .failure => ⟨.readFailed, [(key, dv)], false⟩
      | .interrupted => withPrompt (key, dv) (runAlbum st.interrupt b rest)
      | .line s =>
        match classify s with
        | .back => withPrompt (key, dv) (runAlbum st.prev b rest)
        | .exit => withPrompt (key, dv) (runAlbum st.interrupt b rest)
        | .data v =>
          match b.set_value key v with
          | .error _ => withPrompt (key, dv) (runAlbum st b rest)
          | .ok b' => withPrompt (key, dv) (runAlbum st.next b' rest)

/-- Models `AlbumEditor::new` followed by `run`. -/
def runAlbumEditor (i : AlbumInput) (events : List ReadEvent) :
    RunResult AlbumOutput AlbumOutputError AlbumKey :=
  runAlbum (AlbumState.init i) ⟨i⟩ events

/-! ## Value-frequency counter (model of `src/counter.rs`)

The Rust `Counter` stores a `HashMap<K, HashMap<V, u32>>`. Hash maps are
modelled as association lists in insertion order (the `HashMap` iteration
order is unspecified, so any fixed order is a valid model). -/

/-- Wrapping increment of a `u32` counter: the count in `counter.rs` is a
`u32`, and `+= 1` on it wraps at `2^32` in release builds (debug builds panic
instead; the wrapping semantics is the one modelled). -/
def incU32 (c : Nat) : Nat := (c + 1) % 2 ^ 32

/-- Models the inner `*key_map.entry(value).or_insert(0) += 1`: bump the
`u32` count of `v` with wrapping arithmetic, inserting the value with count
`0 + 1 = 1` if absent. -/
def bumpCount {V : Type} [DecidableEq V] :
    List (V × Nat) → V → List (V × Nat)
  | [], v => [(v, incU32 0)]
  | (w, c) :: rest, v =>
    if w = v then (w, incU32 c) :: rest else (w, c) :: bumpCount rest v

/-- First-match lookup in an association list (model of `HashMap::get`). -/
def lookupKey {K : Type} [DecidableEq K] {β : Type} :
    List (K × β) → K → Option β
  | [], _ => none
  | (k', m) :: rest, k => if k' = k then some m else lookupKey rest k

/-- Models `counter.rs` `Counter<K, V>`. -/
structure Counter (K V : Type) where
  items : List (K × List (V × Nat))
  deriving DecidableEq, Repr

/-- Models `Counter::default`. -/
def Counter.empty (K V : Type) : Counter K V := ⟨[]⟩

/-- Models the outer `self.items.entry(key).or_insert_with(HashMap::new)` step
of `Counter::insert`. -/
def insertItems {K V : Type} [DecidableEq K] [DecidableEq V] :
    List (K × List (V × Nat)) → K → V → List (K × List (V × Nat))
  | [], k, v => [(k, [(v, 1)])]
  | (k', m) :: rest, k, v =>
    if k' = k then (k', bumpCount m v) :: rest
    else (k', m) :: insertItems rest k v

/-- Models `Counter::insert`. -/
def Counter.insert {K V : Type} [DecidableEq K] [DecidableEq V]
    (c : Counter K V) (k : K) (v : V) : Counter K V :=
  ⟨insertItems c.items k v⟩

/-- The entry reached by `values.sort_by_key(count)` followed by `last()` in
`Counter::most_common`: the sort is stable, so the last element is the entry
with maximal count that comes last (in iteration order) among the maximal
ones. This fold computes exactly that entry. -/
def bestEntry {V : Type} (m : List (V × Nat)) : Option (V × Nat) :=
  m.foldl
    (fun acc p =>
      match acc with
      | none => some p
      | some q => if q.2 ≤ p.2 then some p else some q)
    none

/-- Models `Counter::most_common`. -/
def Counter.most_common {K V : Type} [DecidableEq K] [DecidableEq V]
    (c : Counter K V) (k : K) : Option V :=
  match lookupKey c.items k with
  | some m => (bestEntry m).map Prod.fst
  | none => none

/-- Builds a counter from a list of `(key, value)` insertions in order. -/
def Counter.ofList {K V : Type} [DecidableEq K] [DecidableEq V]
    (l : List (K × V)) : Counter K V :=
  l.foldl (fun c p => c.insert p.1 p.2) (Counter.empty K V)

/-- Number of insertions of value `v` under key `k` in an insertion list. -/
def countKV {K V : Type} [DecidableEq K] [DecidableEq V]
    (l : List (K × V)) (k : K) (v : V) : Nat :=
  l.countP (fun p => p.1 = k ∧ p.2 = v)

/-! ## Step lemmas for the session driver -/

theorem runTrack_read_data_ok {st : TrackState} {b b' : TrackOutputBuilder}
    {key : TrackKey} {dv : DefaultValue} {l v : String} {rest : List ReadEvent}
    (hst : st.get_input = .read key dv) (hc : classify l = .data v)
    (hset : b.set_value key v = .ok b') :
    runTrack st b (.line l :: rest) =
      withPrompt (key, dv) (runTrack st.next b' rest) := by
  rw [runTrack.eq_def, hst]
  dsimp only
  rw [hc]
  dsimp only
  rw [hset]

theorem runTrack_read_data_err {st : TrackState} {b : TrackOutputBuilder}
    {key : TrackKey} {dv : DefaultValue} {l v : String} {rest : List ReadEvent}
    {e : TrackInputError}
    (hst : st.get_input = .read key dv) (hc : classify l = .data v)
    (hset : b.set_value key v = .error e) :
    runTrack st b (.line l :: rest) =
      withPrompt (key, dv) (runTrack st b rest) := by
  rw [runTrack.eq_def, hst]
  dsimp only
  rw [hc]
  dsimp only
  rw [hset]

theorem runTrack_read_back {st : TrackState} {b : TrackOutputBuilder}
    {key : TrackKey} {dv : DefaultValue} {l : String} {rest : List ReadEvent}
    (hst : st.get_input = .read key dv) (hc : classify l = .back) :
    runTrack st b (.line l :: rest) =
      withPrompt (key, dv) (runTrack st.prev b rest) := by
  rw [runTrack.eq_def, hst]
  dsimp only
  rw [hc]

theorem runTrack_read_exit {st : TrackState} {b : TrackOutputBuilder}
    {key : TrackKey} {dv : DefaultValue} {l : String} {rest : List ReadEvent}
    (hst : st.get_input = .read key dv) (hc : classify l = .exit) :
    runTrack st b (.line l :: rest) =
      withPrompt (key, dv) (runTrack st.interrupt b rest) := by
  rw [runTrack.eq_def, hst]
  dsimp only
  rw [hc]

theorem runTrack_read_interrupted {st : TrackState} {b : TrackOutputBuilder}
    {key : TrackKey} {dv : DefaultValue} {rest : List ReadEvent}
    (hst : st.get_input = .read key dv) :
    runTrack st b (.interrupted :: rest) =
      withPrompt (key, dv) (runTrack st.interrupt b rest) := by
  rw [runTrack.eq_def, hst]

theorem runTrack_interrupted_state {st : TrackState} {b : TrackOutputBuilder}
    {events : List ReadEvent} (hst : st.kind = .interrupted) :
    runTrack st b events = ⟨.interruptedRun, [], false⟩ := by
  have h : st.get_input = .interrupted := by
    rw [TrackState.get_input, hst]
  rw [runTrack.eq_def, h]

theorem runTrack_finished_state {st : TrackState} {b : TrackOutputBuilder}
    {events : List ReadEvent} (hst : st.kind = .finished) :
    runTrack st b events =
      (match b.build with
       | .ok o => ⟨.finished o, [], true⟩
       | .error e => ⟨.buildFailed e, [], true⟩) := by
  have h : st.get_input = .finished := by
    rw [TrackState.get_input, hst]
  rw [runTrack.eq_def, h]

theorem runAlbum_read_data_ok {st : AlbumState} {b b' : AlbumOutputBuilder}
    {key : AlbumKey} {dv : DefaultValue} {l v : String} {rest : List ReadEvent}
    (hst : st.get_input = .read key dv) (hc : classify l = .data v)
    (hset : b.set_value key v = .ok b') :
    runAlbum st b (.line l :: rest) =
      withPrompt (key, dv) (runAlbum st.next b' rest) := by
  rw [runAlbum.eq_def, hst]
  dsimp only
  rw [hc]
  dsimp only
  rw [hset]

theorem runAlbum_read_data_err {st : AlbumState} {b : AlbumOutputBuilder}
    {key : AlbumKey} {dv : DefaultValue} {l v : String} {rest : List ReadEvent}
    {e : AlbumInputError}
    (hst : st.get_input = .read key dv) (hc : classify l = .data v)
    (hset : b.set_value key v = .error e) :
    runAlbum st b (.line l :: rest) =
      withPrompt (key, dv) (runAlbum st b rest) := by
  rw [runAlbum.eq_def, hst]
  dsimp only
  rw [hc]
  dsimp only
  rw [hset]

theorem runAlbum_read_back {st : AlbumState} {b : AlbumOutputBuilder}
    {key : AlbumKey} {dv : DefaultValue} {l : String} {rest : List ReadEvent}
    (hst : st.get_input = .read key dv) (hc : classify l = .back) :
    runAlbum st b (.line l :: rest) =
      withPrompt (key, dv) (runAlbum st.prev b rest) := by
  rw [runAlbum.eq_def, hst]
  dsimp only
  rw [hc]

theorem runAlbum_read_exit {st : AlbumState} {b : AlbumOutputBuilder}
    {key : AlbumKey} {dv : DefaultValue} {l : String} {rest : List ReadEvent}
    (hst : st.get_input = .read key dv) (hc : classify l = .exit) :
    runAlbum st b (.line l :: rest) =
      withPrompt (key, dv) (runAlbum st.interrupt b rest) := by
  rw [runAlbum.eq_def, hst]
  dsimp only
  rw [hc]

theorem runAlbum_read_interrupted {st : AlbumState} {b : AlbumOutputBuilder}
    {key : AlbumKey} {dv : DefaultValue} {rest : List ReadEvent}
    (hst : st.get_input = .read key dv) :
    runAlbum st b (.interrupted :: rest) =
      withPrompt (key, dv) (runAlbum st.interrupt b rest) := by
  rw [runAlbum.eq_def, hst]

theorem runAlbum_interrupted_state {st : AlbumState} {b : AlbumOutputBuilder}
    {events : List ReadEvent} (hst : st.kind = .interrupted) :
    runAlbum st b events = ⟨.interruptedRun, [], false⟩ := by
  have h : st.get_input = .interrupted := by
    rw [AlbumState.get_input, hst]
  rw [runAlbum.eq_def, h]

theorem runAlbum_finished_state {st : AlbumState} {b : AlbumOutputBuilder}
    {events : List ReadEvent} (hst : st.kind = .finished) :
    runAlbum st b events =
      (match b.build with
       | .ok o => ⟨.finished o, [], true⟩
       | .error e => ⟨.buildFailed e, [], true⟩) := by
  have h : st.get_input = .finished := by
    rw [AlbumState.get_input, hst]
  rw [runAlbum.eq_def, h]

/-! ## Claim theorems -/

/-- C6: for both state machines, the retreat transition stays at the first
field from the first field, moves to the immediately preceding field from
every other field, moves to the first field from `Interrupted`, and moves to
the last field from `Finished`. -/
theorem claim_C6_retreat_transitions :
    (∀ i : TrackInput,
      (TrackState.mk i .trackNumber).prev = ⟨i, .trackNumber⟩ ∧
      (TrackState.mk i .discNumber).prev = ⟨i, .trackNumber⟩ ∧
      (TrackState.mk i .title).prev = ⟨i, .discNumber⟩ ∧
      (TrackState.mk i .interrupted).prev = ⟨i, .trackNumber⟩ ∧
      (TrackState.mk i .finished).prev = ⟨i, .title⟩) ∧
    (∀ a : AlbumInput,
      (AlbumState.mk a .artist).prev = ⟨a, .artist⟩ ∧
      (AlbumState.mk a .albumArtist).prev = ⟨a, .artist⟩ ∧
      (AlbumState.mk a .album).prev = ⟨a, .albumArtist⟩ ∧
      (AlbumState.mk a .year).prev = ⟨a, .album⟩ ∧
      (AlbumState.mk a .totalTracks).prev = ⟨a, .year⟩ ∧
      (AlbumState.mk a .totalDiscs).prev = ⟨a, .totalTracks⟩ ∧
      (AlbumState.mk a .interrupted).prev = ⟨a, .artist⟩ ∧
      (AlbumState.mk a .finished).prev = ⟨a, .totalDiscs⟩) :=
  ⟨fun _ => ⟨rfl, rfl, rfl, rfl, rfl⟩,
   fun _ => ⟨rfl, rfl, rfl, rfl, rfl, rfl, rfl, rfl⟩⟩

/-- C10: a successful `set_value` on a field modifies only that field of the
partial record; every other field is unchanged, for both builders. -/
theorem claim_C10_set_value_frame :
    (∀ (b b' : TrackOutputBuilder) (s : String),
      (b.set_value .trackNumber s = .ok b' →
        b'.track_input.disc_number = b.track_input.disc_number ∧
        b'.track_input.title = b.track_input.title) ∧
      (b.set_value .discNumber s = .ok b' →
        b'.track_input.track_number = b.track_input.track_number ∧
        b'.track_input.title = b.track_input.title) ∧
      (b.set_value .title s = .ok b' →
        b'.track_input.track_number = b.track_input.track_number ∧
        b'.track_input.disc_number = b.track_input.disc_number)) ∧
    (∀ (b b' : AlbumOutputBuilder) (s : String),
      (b.set_value .artist s = .ok b' →
        b'.album_input.album_artist = b.album_input.album_artist ∧
        b'.album_input.album = b.album_input.album ∧
        b'.album_input.year = b.album_input.year ∧
        b'.album_input.total_tracks = b.album_input.total_tracks ∧
        b'.album_input.total_discs = b.album_input.total_discs) ∧
      (b.set_value .albumArtist s = .ok b' →
        b'.album_input.artist = b.album_input.artist ∧
        b'.album_input.album = b.album_input.album ∧
        b'.album_input.year = b.album_input.year ∧
        b'.album_input.total_tracks = b.album_input.total_tracks ∧
        b'.album_input.total_discs = b.album_input.total_discs) ∧
      (b.set_value .album s = .ok b' →
        b'.album_input.artist = b.album_input.artist ∧
        b'.album_input.album_artist = b.album_input.album_artist ∧
        b'.album_input.year = b.album_input.year ∧
        b'.album_input.total_tracks = b.album_input.total_tracks ∧
        b'.album_input.total_discs = b.album_input.total_discs) ∧
      (b.set_value .year s = .ok b' →
        b'.album_input.artist = b.album_input.artist ∧
        b'.album_input.album_artist = b.album_input.album_artist ∧
        b'.album_input.album = b.album_input.album ∧
        b'.album_input.total_tracks = b.album_input.total_tracks ∧
        b'.album_input.total_discs = b.album_input.total_discs) ∧
      (b.set_value .totalTracks s = .ok b' →
        b'.album_input.artist = b.album_input.artist ∧
        b'.album_input.album_artist = b.album_input.album_artist ∧
        b'.album_input.album = b.album_input.album ∧
        b'.album_input.year = b.album_input.year ∧
        b'.album_input.total_discs = b.album_input.total_discs) ∧
      (b.set_value .totalDiscs s = .ok b' →
        b'.album_input.artist = b.album_input.artist ∧
        b'.album_input.album_artist = b.album_input.album_artist ∧
        b'.album_input.album = b.album_input.album ∧
        b'.album_input.year = b.album_input.year ∧
        b'.album_input.total_tracks = b.album_input.total_tracks)) := by
  constructor
  · intro b b' s
    refine ⟨fun h => ?_, fun h => ?_, fun h => ?_⟩ <;>
      dsimp only [TrackOutputBuilder.set_value] at h
    · split at h
      · injection h with h
        subst h
        exact ⟨rfl, rfl⟩
      · exact absurd h (by simp)
    · split at h
      · injection h with h
        subst h
        exact ⟨rfl, rfl⟩
      · exact absurd h (by simp)
    · injection h with h
      subst h
      exact ⟨rfl, rfl⟩
  · intro b b' s
    refine ⟨fun h => ?_, fun h => ?_, fun h => ?_, fun h => ?_, fun h => ?_,
      fun h => ?_⟩ <;>
      dsimp only [AlbumOutputBuilder.set_value] at h
    · injection h with h
      subst h
      exact ⟨rfl, rfl, rfl, rfl, rfl⟩
    · injection h with h
      subst h
      exact ⟨rfl, rfl, rfl, rfl, rfl⟩
    · injection h with h
      subst h
      exact ⟨rfl, rfl, rfl, rfl, rfl⟩
    · split at h
      · injection h with h
        subst h
        exact ⟨rfl, rfl, rfl, rfl, rfl⟩
      · exact absurd h (by simp)
    · split at h
      · injection h with h
        subst h
        exact ⟨rfl, rfl, rfl, rfl, rfl⟩
      · exact absurd h (by simp)
    · split at h
      · injection h with h
        subst h
        exact ⟨rfl, rfl, rfl, rfl, rfl⟩
      · exact absurd h (by simp)

/-- C10 witness: setting the track number of an empty builder to `"1"` leaves
the disc number and title unchanged. -/
theorem claim_C10_set_value_frame_witness :
    TrackOutputBuilder.set_value ⟨emptyTrackInput⟩ .trackNumber "1" =
      .ok ⟨⟨some 1, none, none⟩⟩ ∧
    (⟨⟨some 1, none, none⟩⟩ : TrackOutputBuilder).track_input.disc_number =
      (⟨emptyTrackInput⟩ : TrackOutputBuilder).track_input.disc_number ∧
    (⟨⟨some 1, none, none⟩⟩ : TrackOutputBuilder).track_input.title =
      (⟨emptyTrackInput⟩ : TrackOutputBuilder).track_input.title :=
  ⟨rfl,
   (claim_C10_set_value_frame.1 ⟨emptyTrackInput⟩ ⟨⟨some 1, none, none⟩⟩ "1").1
     rfl⟩

/-- C5: `build()` on a builder with at least one unset required field fails
with the error naming the first unset field in the record kind's field order
(the embedding is a total function, so no panic is possible); in particular, a
track builder with track and disc numbers set but title unset fails naming
the title. -/
theorem claim_C5_build_first_missing :
    (∀ b : TrackOutputBuilder,
      (b.track_input.track_number = none → b.build = .error .trackNumber) ∧
      (∀ tn, b.track_input.track_number = some tn →
        b.track_input.disc_number = none → b.build = .error .discNumber) ∧
      (∀ tn dn, b.track_input.track_number = some tn →
        b.track_input.disc_number = some dn →
        b.track_input.title = none → b.build = .error .title)) ∧
    (∀ b : AlbumOutputBuilder,
      (b.album_input.artist = none → b.build = .error .artist) ∧
      (∀ ar, b.album_input.artist = some ar →
        b.album_input.album_artist = none → b.build = .error .albumArtist) ∧
      (∀ ar aa, b.album_input.artist = some ar →
        b.album_input.album_artist = some aa →
        b.album_input.album = none → b.build = .error .album) ∧
      (∀ ar aa al, b.album_input.artist = some ar →
        b.album_input.album_artist = some aa →
        b.album_input.album = some al →
        b.album_input.year = none → b.build = .error .year) ∧
      (∀ ar aa al y, b.album_input.artist = some ar →
        b.album_input.album_artist = some aa →
        b.album_input.album = some al →
        b.album_input.year = some y →
        b.album_input.total_tracks = none → b.build = .error .totalTracks) ∧
      (∀ ar aa al y tt, b.album_input.artist = some ar →
        b.album_input.album_artist = some aa →
        b.album_input.album = some al →
        b.album_input.year = some y →
        b.album_input.total_tracks = some tt →
        b.album_input.total_discs = none → b.build = .error .totalDiscs)) ∧
    TrackOutputBuilder.build ⟨⟨some 1, some 1, none⟩⟩ = .error .title ∧
    TrackOutputError.message .title = "title is required" := by
  refine ⟨fun b => ⟨fun h1 => ?_, fun tn h1 h2 => ?_, fun tn dn h1 h2 h3 => ?_⟩,
    fun b => ⟨fun h1 => ?_, fun ar h1 h2 => ?_, fun ar aa h1 h2 h3 => ?_,
      fun ar aa al h1 h2 h3 h4 => ?_, fun ar aa al y h1 h2 h3 h4 h5 => ?_,
      fun ar aa al y tt h1 h2 h3 h4 h5 h6 => ?_⟩, rfl, rfl⟩ <;>
    simp only [TrackOutputBuilder.build, AlbumOutputBuilder.build,
      h1] <;>
    try rfl
  · rw [h2]
  · rw [h2, h3]
  · rw [h2]
  · rw [h2, h3]
  · rw [h2, h3, h4]
  · rw [h2, h3, h4, h5]
  · rw [h2, h3, h4, h5, h6]

/-- C5 witness: a track builder with track number 1 and disc number 1 but no
title builds to the completeness error naming the title. -/
theorem claim_C5_build_first_missing_witness :
    (⟨⟨some 1, some 1, none⟩⟩ : TrackOutputBuilder).track_input.track_number =
      some 1 ∧
    (⟨⟨some 1, some 1, none⟩⟩ : TrackOutputBuilder).track_input.disc_number =
      some 1 ∧
    (⟨⟨some 1, some 1, none⟩⟩ : TrackOutputBuilder).track_input.title = none ∧
    TrackOutputBuilder.build ⟨⟨some 1, some 1, none⟩⟩ = .error .title :=
  ⟨rfl, rfl, rfl,
   (claim_C5_build_first_missing.1 ⟨⟨some 1, some 1, none⟩⟩).2.2 1 1 rfl rfl rfl⟩

/-- C4 counterexample: the album year field accepts the negative integer
string `"-1"` (year is a signed 32-bit field, so `"-1".parse::<i32>()`
succeeds), contradicting the claim that every numeric field rejects negative
integers with a parse error. -/
theorem claim_C4_counterexample :
    AlbumOutputBuilder.set_value ⟨emptyAlbumInput⟩ .year "-1" =
      .ok ⟨{ emptyAlbumInput with year := some (-1) }⟩ := rfl

/-- C4 amended: the unsigned numeric fields (track number, disc number, total
tracks, total discs) accept a raw string exactly when it parses as an integer
in `[0, 2^32)`, and reject every string starting with a minus sign; the album
year field is signed and accepts a raw string exactly when it parses as an
integer in `[-2^31, 2^31)`, so it accepts negative integers such as `"-1"`. -/
theorem claim_C4_amended_numeric_ranges :
    (∀ (s : String) (b : TrackOutputBuilder),
      (∃ b', b.set_value .trackNumber s = .ok b') ↔ ∃ n, parseU32 s = .ok n) ∧
    (∀ (s : String) (b : TrackOutputBuilder),
      (∃ b', b.set_value .discNumber s = .ok b') ↔ ∃ n, parseU32 s = .ok n) ∧
    (∀ (s : String) (b : AlbumOutputBuilder),
      (∃ b', b.set_value .totalTracks s = .ok b') ↔ ∃ n, parseU32 s = .ok n) ∧
    (∀ (s : String) (b : AlbumOutputBuilder),
      (∃ b', b.set_value .totalDiscs s = .ok b') ↔ ∃ n, parseU32 s = .ok n) ∧
    (∀ (s : String) (n : Nat), parseU32 s = .ok n → n < 2 ^ 32) ∧
    (∀ (s : String) (cs : List Char), s.data = '-' :: cs →
      parseU32 s = .error ⟨.invalidDigit⟩) ∧
    (∀ (s : String) (b : AlbumOutputBuilder),
      (∃ b', b.set_value .year s = .ok b') ↔ ∃ v, parseI32 s = .ok v) ∧
    (∀ (s : String) (v : Int), parseI32 s = .ok v →
      -(2 ^ 31) ≤ v ∧ v < 2 ^ 31) ∧
    (∃ b', AlbumOutputBuilder.set_value ⟨emptyAlbumInput⟩ .year "-1" = .ok b') := by
  refine ⟨?_, ?_, ?_, ?_, ?_, ?_, ?_, ?_,
    ⟨⟨{ emptyAlbumInput with year := some (-1) }⟩, rfl⟩⟩
  · intro s b
    cases hp : parseU32 s <;> simp [TrackOutputBuilder.set_value, hp]
  · intro s b
    cases hp : parseU32 s <;> simp [TrackOutputBuilder.set_value, hp]
  · intro s b
    cases hp : parseU32 s <;> simp [AlbumOutputBuilder.set_value, hp]
  · intro s b
    cases hp : parseU32 s <;> simp [AlbumOutputBuilder.set_value, hp]
  · intro s n h
    unfold parseU32 at h
    split at h
    · exact absurd h (by simp)
    · dsimp only at h
      split_ifs at h
      all_goals simp at h
      all_goals omega
  · intro s cs h
    unfold parseU32
    rw [h]
    simp
  · intro s b
    cases hp : parseI32 s <;> simp [AlbumOutputBuilder.set_value, hp]
  · intro s v h
    unfold parseI32 at h
    split at h
    · exact absurd h (by simp)
    · dsimp only at h
      split_ifs at h
      all_goals simp at h
      all_goals omega

/-- C4 amended witness: `"1"` is accepted by the track-number field, `"-1"` is
rejected by it, and `"-1"` is accepted by the album year field. -/
theorem claim_C4_amended_numeric_ranges_witness :
    (∃ b', TrackOutputBuilder.set_value ⟨emptyTrackInput⟩ .trackNumber "1" =
      .ok b') ∧
    parseU32 "-1" = .error ⟨.invalidDigit⟩ ∧
    (∃ b', AlbumOutputBuilder.set_value ⟨emptyAlbumInput⟩ .year "-1" = .ok b') :=
  ⟨(claim_C4_amended_numeric_ranges.1 "1" ⟨emptyTrackInput⟩).2 ⟨1, rfl⟩,
   claim_C4_amended_numeric_ranges.2.2.2.2.2.1 "-1" ['1'] rfl,
   claim_C4_amended_numeric_ranges.2.2.2.2.2.2.2.2⟩

/-- C3: when parsing fails for a field's declared type, `set_value` returns
the field-specific parse error and (the builder being reused unchanged) no
field of the partial record is modified; the driver consumes the line but
keeps the same state (cursor on the same field) and the same builder,
re-prompting the field without advancing. -/
theorem claim_C3_parse_failure_no_advance :
    (∀ (s : String) (b : TrackOutputBuilder) (e : ParseIntError),
      parseU32 s = .error e →
      b.set_value .trackNumber s = .error (.trackNumber e) ∧
      b.set_value .discNumber s = .error (.discNumber e)) ∧
    (∀ (s : String) (b : AlbumOutputBuilder) (e : ParseIntError),
      parseI32 s = .error e → b.set_value .year s = .error (.year e)) ∧
    (∀ (s : String) (b : AlbumOutputBuilder) (e : ParseIntError),
      parseU32 s = .error e →
      b.set_value .totalTracks s = .error (.totalTracks e) ∧
      b.set_value .totalDiscs s = .error (.totalDiscs e)) ∧
    (∀ (st : TrackState) (b : TrackOutputBuilder) (key : TrackKey)
        (dv : DefaultValue) (l v : String) (rest : List ReadEvent)
        (e : TrackInputError),
      st.get_input = .read key dv → classify l = .data v →
      b.set_value key v = .error e →
      runTrack st b (.line l :: rest) =
        withPrompt (key, dv) (runTrack st b rest)) ∧
    (∀ (st : AlbumState) (b : AlbumOutputBuilder) (key : AlbumKey)
        (dv : DefaultValue) (l v : String) (rest : List ReadEvent)
        (e : AlbumInputError),
      st.get_input = .read key dv → classify l = .data v →
      b.set_value key v = .error e →
      runAlbum st b (.line l :: rest) =
        withPrompt (key, dv) (runAlbum st b rest)) := by
  refine ⟨?_, ?_, ?_,
    fun st b key dv l v rest e h1 h2 h3 => runTrack_read_data_err h1 h2 h3,
    fun st b key dv l v rest e h1 h2 h3 => runAlbum_read_data_err h1 h2 h3⟩
  · intro s b e h
    exact ⟨by simp [TrackOutputBuilder.set_value, h],
      by simp [TrackOutputBuilder.set_value, h]⟩
  · intro s b e h
    simp [AlbumOutputBuilder.set_value, h]
  · intro s b e h
    exact ⟨by simp [AlbumOutputBuilder.set_value, h],
      by simp [AlbumOutputBuilder.set_value, h]⟩

/-- C3 witness: the unparseable answer `"abc"` on the track-number field
yields the field-specific error, and the driver re-prompts the same field
with the builder unchanged. -/
theorem claim_C3_parse_failure_no_advance_witness :
    (TrackState.init emptyTrackInput).get_input =
      .read .trackNumber ⟨"", ""⟩ ∧
    classify "abc" = .data "abc" ∧
    TrackOutputBuilder.set_value ⟨emptyTrackInput⟩ .trackNumber "abc" =
      .error (.trackNumber ⟨.invalidDigit⟩) ∧
    runTrack (TrackState.init emptyTrackInput) ⟨emptyTrackInput⟩
        [.line "abc"] =
      withPrompt (.trackNumber, ⟨"", ""⟩)
        (runTrack (TrackState.init emptyTrackInput) ⟨emptyTrackInput⟩ []) :=
  ⟨rfl, by decide, rfl,
   claim_C3_parse_failure_no_advance.2.2.2.1
     (TrackState.init emptyTrackInput) ⟨emptyTrackInput⟩ .trackNumber
     ⟨"", ""⟩ "abc" "abc" [] (.trackNumber ⟨.invalidDigit⟩)
     rfl (by decide) rfl⟩

/-- An event whose read yields `Exit`: the explicit quit command or an
out-of-band interruption (`ReadlineError::Interrupted` / `Eof`). -/
def exitEvent (e : ReadEvent) : Prop :=
  e = .interrupted ∨ ∃ s, e = .line s ∧ classify s = .exit

/-- C7: from any field prompt, an abort (quit command or out-of-band
interrupt) moves the state machine to `Interrupted` and the run returns the
`Interrupted` result variant without ever invoking `build()`. -/
theorem claim_C7_abort_interrupts_without_build :
    (∀ (st : TrackState) (b : TrackOutputBuilder) (key : TrackKey)
        (dv : DefaultValue) (e : ReadEvent) (rest : List ReadEvent),
      st.get_input = .read key dv → exitEvent e →
      runTrack st b (e :: rest) = ⟨.interruptedRun, [(key, dv)], false⟩) ∧
    (∀ (st : AlbumState) (b : AlbumOutputBuilder) (key : AlbumKey)
        (dv : DefaultValue) (e : ReadEvent) (rest : List ReadEvent),
      st.get_input = .read key dv → exitEvent e →
      runAlbum st b (e :: rest) = ⟨.interruptedRun, [(key, dv)], false⟩) := by
  constructor
  · intro st b key dv e rest hst he
    rcases he with he | ⟨s, he, hc⟩
    · subst he
      rw [runTrack_read_interrupted hst,
        runTrack_interrupted_state
          (show st.interrupt.kind = .interrupted from rfl)]
      rfl
    · subst he
      rw [runTrack_read_exit hst hc,
        runTrack_interrupted_state
          (show st.interrupt.kind = .interrupted from rfl)]
      rfl
  · intro st b key dv e rest hst he
    rcases he with he | ⟨s, he, hc⟩
    · subst he
      rw [runAlbum_read_interrupted hst,
        runAlbum_interrupted_state
          (show st.interrupt.kind = .interrupted from rfl)]
      rfl
    · subst he
      rw [runAlbum_read_exit hst hc,
        runAlbum_interrupted_state
          (show st.interrupt.kind = .interrupted from rfl)]
      rfl

/-- C7 witness: the quit command at the first track field yields the
`Interrupted` outcome with `build()` never called. -/
theorem claim_C7_abort_interrupts_without_build_witness :
    (TrackState.init emptyTrackInput).get_input =
      .read .trackNumber ⟨"", ""⟩ ∧
    exitEvent (.line ":q") ∧
    runTrack (TrackState.init emptyTrackInput) ⟨emptyTrackInput⟩
        [.line ":q"] =
      ⟨.interruptedRun, [(.trackNumber, ⟨"", ""⟩)], false⟩ :=
  ⟨rfl, Or.inr ⟨":q", rfl, by decide⟩,
   claim_C7_abort_interrupts_without_build.1
     (TrackState.init emptyTrackInput) ⟨emptyTrackInput⟩ .trackNumber
     ⟨"", ""⟩ (.line ":q") [] rfl (Or.inr ⟨":q", rfl, by decide⟩)⟩

/-! ## Trimming lemmas (for C9) -/

theorem head?_dropWhile_not {p : Char → Bool} :
    ∀ (l : List Char) (c : Char), (l.dropWhile p).head? = some c → p c = false := by
  intro l
  induction l with
  | nil => intro c h; simp [List.dropWhile] at h
  | cons x xs ih =>
    intro c h
    by_cases hp : p x
    · rw [List.dropWhile_cons_of_pos hp] at h
      exact ih c h
    · rw [List.dropWhile_cons_of_neg hp] at h
      simp at h
      subst h
      simpa using hp

theorem getLast?_dropWhile {p : Char → Bool} :
    ∀ (l : List Char), l.dropWhile p ≠ [] →
      (l.dropWhile p).getLast? = l.getLast? := by
  intro l
  induction l with
  | nil => intro h; simp [List.dropWhile] at h
  | cons x xs ih =>
    intro h
    by_cases hp : p x
    · rw [List.dropWhile_cons_of_pos hp] at h ⊢
      rw [ih h, List.getLast?_cons]
      have hxs : xs ≠ [] := by
        intro hn
        subst hn
        simp [List.dropWhile] at h
      cases xs with
      | nil => exact absurd rfl hxs
      | cons y ys => simp [List.getLast?_cons]
    · rw [List.dropWhile_cons_of_neg hp]

/-- The trimmed character list has no leading whitespace. -/
theorem trimChars_head {cs : List Char} {c : Char}
    (h : (trimChars cs).head? = some c) : c.isWhitespace = false := by
  unfold trimChars at h
  rw [List.head?_reverse] at h
  have hne : (((cs.dropWhile Char.isWhitespace).reverse).dropWhile
      Char.isWhitespace) ≠ [] := by
    intro hn
    rw [hn] at h
    simp at h
  rw [getLast?_dropWhile _ hne, List.getLast?_reverse] at h
  exact head?_dropWhile_not cs c h

/-- The trimmed character list has no trailing whitespace. -/
theorem trimChars_getLast {cs : List Char} {c : Char}
    (h : (trimChars cs).getLast? = some c) : c.isWhitespace = false := by
  unfold trimChars at h
  rw [List.getLast?_reverse] at h
  exact head?_dropWhile_not _ c h

/-- Trimming an all-whitespace character list yields the empty list. -/
theorem trimChars_all_whitespace {cs : List Char}
    (h : cs.all Char.isWhitespace) : trimChars cs = [] := by
  unfold trimChars
  have h1 : cs.dropWhile Char.isWhitespace = [] :=
    List.dropWhile_eq_nil_iff.mpr (by simpa [List.all_eq_true] using h)
  rw [h1]
  simp [List.dropWhile]

/-- A string with no surrounding whitespace: its first and last characters,
when they exist, are not whitespace. -/
def noSurroundingWhitespace (s : String) : Prop :=
  (∀ c, s.data.head? = some c → c.isWhitespace = false) ∧
  (∀ c, s.data.getLast? = some c → c.isWhitespace = false)

/-- C9: a submitted line not recognized as the back or quit command is passed
to `set_value` as the line with surrounding whitespace removed, which has no
leading or trailing whitespace; a whitespace-only line becomes the empty
string, which a free-text field (track title, album artist) accepts as a
successfully set value. -/
theorem claim_C9_lines_trimmed :
    (∀ s v, classify s = .data v → v = strTrim s) ∧
    (∀ s, noSurroundingWhitespace (strTrim s)) ∧
    (∀ s, s.data.all Char.isWhitespace → classify s = .data "") ∧
    (∀ b : TrackOutputBuilder,
      b.set_value .title "" = .ok ⟨{ b.track_input with title := some "" }⟩) ∧
    (∀ b : AlbumOutputBuilder,
      b.set_value .artist "" = .ok ⟨{ b.album_input with artist := some "" }⟩) := by
  refine ⟨?_, ?_, ?_, fun b => rfl, fun b => rfl⟩
  · intro s v h
    unfold classify at h
    dsimp only at h
    split_ifs at h
    injection h with h2
    exact h2.symm
  · intro s
    exact ⟨fun c hc => trimChars_head hc, fun c hc => trimChars_getLast hc⟩
  · intro s h
    have ht : strTrim s = "" := by
      show String.mk (trimChars s.data) = ""
      rw [trimChars_all_whitespace h]
    unfold classify
    rw [ht]
    rfl

/-- C9 witness: the line `"  Echoes  "` is classified as the data value
`"Echoes"` (its trim), and the whitespace-only line `"   "` is classified as
the empty-string data value. -/
theorem claim_C9_lines_trimmed_witness :
    classify "  Echoes  " = .data "Echoes" ∧
    "Echoes" = strTrim "  Echoes  " ∧
    "   ".data.all Char.isWhitespace = true ∧
    classify "   " = .data "" :=
  ⟨by decide,
   claim_C9_lines_trimmed.1 "  Echoes  " "Echoes" (by decide),
   by decide,
   claim_C9_lines_trimmed.2.2.1 "   " (by decide)⟩

/-! ## Default-hint provenance (for C2) -/

theorem withPrompt_prompts {O E K : Type} (p : K × DefaultValue)
    (r : RunResult O E K) : (withPrompt p r).prompts = p :: r.prompts := rfl

/-- The default hint that `TrackState::get_input` derives for each key from a
given partial record. -/
def trackHint (i : TrackInput) : TrackKey → DefaultValue
  | .trackNumber => .ofOption i.track_number
  | .discNumber => .ofOption i.disc_number
  | .title => .ofOption i.title

theorem track_get_input_hint {st : TrackState} {key : TrackKey}
    {dv : DefaultValue} (h : st.get_input = .read key dv) :
    dv = trackHint st.track_input key := by
  obtain ⟨i, k⟩ := st
  cases k <;> dsimp only [TrackState.get_input] at h
  · injection h with h1 h2
    subst h1
    subst h2
    rfl
  · injection h with h1 h2
    subst h1
    subst h2
    rfl
  · injection h with h1 h2
    subst h1
    subst h2
    rfl
  · exact absurd h (by simp)
  · exact absurd h (by simp)

theorem track_get_input_interrupted {st : TrackState}
    (h : st.get_input = .interrupted) : st.kind = .interrupted := by
  obtain ⟨i, k⟩ := st
  cases k <;> simp_all [TrackState.get_input]

theorem track_get_input_finished {st : TrackState}
    (h : st.get_input = .finished) : st.kind = .finished := by
  obtain ⟨i, k⟩ := st
  cases k <;> simp_all [TrackState.get_input]

/-- Every prompt shown by a track run derives its default hint from the state
machine's own (never mutated) copy of the track input: the one passed to
`TrackState::new`, not the values accumulated by the builder. -/
theorem runTrack_prompts_from_seed (events : List ReadEvent) :
    ∀ (st : TrackState) (b : TrackOutputBuilder),
      ∀ p ∈ (runTrack st b events).prompts,
        p.2 = trackHint st.track_input p.1 := by
  induction events with
  | nil =>
    intro st b p hp
    rcases hg : st.get_input with ⟨key, dv⟩ | _ | _
    · have hr : runTrack st b [] = ⟨.noInput, [], false⟩ := by
        rw [runTrack.eq_def, hg]
      rw [hr] at hp
      simp at hp
    · rw [runTrack_interrupted_state (track_get_input_interrupted hg)] at hp
      simp at hp
    · rw [runTrack_finished_state (track_get_input_finished hg)] at hp
      rcases hb : b.build with o | e <;> rw [hb] at hp <;> simp at hp
  | cons e rest ih =>
    intro st b p hp
    rcases hg : st.get_input with ⟨key, dv⟩ | _ | _
    · cases e with
      | failure =>
        have hr : runTrack st b (.failure :: rest) =
            ⟨.readFailed, [(key, dv)], false⟩ := by
          rw [runTrack.eq_def, hg]
        rw [hr] at hp
        simp at hp
        subst hp
        exact track_get_input_hint hg
      | interrupted =>
        rw [runTrack_read_interrupted hg, withPrompt_prompts] at hp
        rcases List.mem_cons.mp hp with hp | hp
        · subst hp
          exact track_get_input_hint hg
        · exact ih st.interrupt b p hp
      | line s =>
        rcases hc : classify s with v | _ | _
        · rcases hs : b.set_value key v with e' | b'
          · rw [runTrack_read_data_err hg hc hs, withPrompt_prompts] at hp
            rcases List.mem_cons.mp hp with hp | hp
            · subst hp
              exact track_get_input_hint hg
            · exact ih st b p hp
          · rw [runTrack_read_data_ok hg hc hs, withPrompt_prompts] at hp
            rcases List.mem_cons.mp hp with hp | hp
            · subst hp
              exact track_get_input_hint hg
            · exact ih st.next b' p hp
        · rw [runTrack_read_back hg hc, withPrompt_prompts] at hp
          rcases List.mem_cons.mp hp with hp | hp
          · subst hp
            exact track_get_input_hint hg
          · exact ih st.prev b p hp
        · rw [runTrack_read_exit hg hc, withPrompt_prompts] at hp
          rcases List.mem_cons.mp hp with hp | hp
          · subst hp
            exact track_get_input_hint hg
          · exact ih st.interrupt b p hp
    · rw [runTrack_interrupted_state (track_get_input_interrupted hg)] at hp
      simp at hp
    · rw [runTrack_finished_state (track_get_input_finished hg)] at hp
      rcases hb : b.build with o | e <;> rw [hb] at hp <;> simp at hp

/-- C2 counterexample: in a track session seeded with no defaults, after
supplying `"1"` for the track number and then the back command, the
redisplayed track-number prompt (the third prompt of the spec's end-to-end
script) carries an empty default hint, not `"1"`: the state machine's copy of
the partial record is never updated by `set_value`, so the previously entered
value is not re-displayed. -/
theorem claim_C2_counterexample :
    (runTrackEditor emptyTrackInput
        [.line "1", .line ":b", .line "2", .line "1",
         .line "Echoes"]).prompts.get? 2 =
      some (.trackNumber, ⟨"", ""⟩) ∧
    ((⟨"", ""⟩ : DefaultValue) ≠ ⟨"1", ""⟩) :=
  ⟨by decide, by decide⟩

/-- C2 amended: the default hint of every prompt, including one redisplayed
after retreating, is derived from the session's seed input (the state
machine's own copy of the partial record, which `set_value` never touches),
not from values entered during the session; concretely, in a track session
seeded with no defaults, after supplying `"1"` and the back command the
redisplayed track-number prompt has an empty default hint, while the run
still finishes with the values later entered (disc number 1, as in the
spec's end-to-end expectation). -/
theorem claim_C2_amended_redisplay_uses_seed :
    (∀ (st : TrackState) (b : TrackOutputBuilder) (events : List ReadEvent),
      ∀ p ∈ (runTrack st b events).prompts,
        p.2 = trackHint st.track_input p.1) ∧
    (runTrackEditor emptyTrackInput
        [.line "1", .line ":b", .line "2", .line "1",
         .line "Echoes"]).prompts.get? 2 =
      some (.trackNumber, ⟨"", ""⟩) ∧
    (runTrackEditor emptyTrackInput
        [.line "1", .line ":b", .line "2", .line "1",
         .line "Echoes"]).outcome =
      .finished ⟨2, 1, "Echoes"⟩ :=
  ⟨fun st b events => runTrack_prompts_from_seed events st b,
   by decide, by decide⟩

/-- C2 amended witness: in the seeded-empty session `["1", ":b"]`, the
redisplayed track-number prompt is among the shown prompts and its hint is
the seed-derived hint for the track-number field. -/
theorem claim_C2_amended_redisplay_uses_seed_witness :
    ((.trackNumber, ⟨"", ""⟩) : TrackKey × DefaultValue) ∈
      (runTrack (TrackState.init emptyTrackInput) ⟨emptyTrackInput⟩
        [.line "1", .line ":b"]).prompts ∧
    ((.trackNumber, (⟨"", ""⟩ : DefaultValue)) :
        TrackKey × DefaultValue).2 =
      trackHint (TrackState.init emptyTrackInput).track_input .trackNumber :=
  ⟨by decide,
   claim_C2_amended_redisplay_uses_seed.1
     (TrackState.init emptyTrackInput) ⟨emptyTrackInput⟩
     [.line "1", .line ":b"] (.trackNumber, ⟨"", ""⟩) (by decide)⟩

/-- C1: for both record kinds, starting from the initial state and answering
every prompt with a valid (parseable) value reaches `Finished` after exactly
field-count prompts (3 for track, 6 for album), and `build()` succeeds,
returning a record whose fields are exactly the supplied values. -/
theorem claim_C1_forward_completion :
    (∀ (i : TrackInput) (l1 l2 l3 v1 v2 v3 : String) (n d : Nat),
      classify l1 = .data v1 → parseU32 v1 = .ok n →
      classify l2 = .data v2 → parseU32 v2 = .ok d →
      classify l3 = .data v3 →
      runTrackEditor i [.line l1, .line l2, .line l3] =
        ⟨.finished ⟨n, d, v3⟩,
         [(.trackNumber, .ofOption i.track_number),
          (.discNumber, .ofOption i.disc_number),
          (.title, .ofOption i.title)], true⟩) ∧
    (∀ (i : AlbumInput) (l1 l2 l3 l4 l5 l6 v1 v2 v3 v4 v5 v6 : String)
        (y : Int) (tt td : Nat),
      classify l1 = .data v1 → classify l2 = .data v2 →
      classify l3 = .data v3 →
      classify l4 = .data v4 → parseI32 v4 = .ok y →
      classify l5 = .data v5 → parseU32 v5 = .ok tt →
      classify l6 = .data v6 → parseU32 v6 = .ok td →
      runAlbumEditor i
          [.line l1, .line l2, .line l3, .line l4, .line l5, .line l6] =
        ⟨.finished ⟨v1, v2, v3, y, tt, td⟩,
         [(.artist, .ofOption i.artist),
          (.albumArtist, .ofOption i.album_artist),
          (.album, .ofOption i.album),
          (.year, .ofOption i.year),
          (.totalTracks, .ofOption i.total_tracks),
          (.totalDiscs, .ofOption i.total_discs)], true⟩) := by
  constructor
  · intro i l1 l2 l3 v1 v2 v3 n d hc1 hp1 hc2 hp2 hc3
    have hs1 : TrackOutputBuilder.set_value ⟨i⟩ .trackNumber v1 =
        .ok ⟨⟨some n, i.disc_number, i.title⟩⟩ := by
      dsimp only [TrackOutputBuilder.set_value]
      rw [hp1]
    have hs2 : TrackOutputBuilder.set_value ⟨⟨some n, i.disc_number, i.title⟩⟩
        .discNumber v2 = .ok ⟨⟨some n, some d, i.title⟩⟩ := by
      dsimp only [TrackOutputBuilder.set_value]
      rw [hp2]
    have hs3 : TrackOutputBuilder.set_value ⟨⟨some n, some d, i.title⟩⟩
        .title v3 = .ok ⟨⟨some n, some d, some v3⟩⟩ := rfl
    rw [runTrackEditor]
    rw [runTrack_read_data_ok
      (show (TrackState.init i).get_input =
        .read .trackNumber (.ofOption i.track_number) from rfl) hc1 hs1]
    rw [runTrack_read_data_ok
      (show (TrackState.init i).next.get_input =
        .read .discNumber (.ofOption i.disc_number) from rfl) hc2 hs2]
    rw [runTrack_read_data_ok
      (show (TrackState.init i).next.next.get_input =
        .read .title (.ofOption i.title) from rfl) hc3 hs3]
    rw [runTrack_finished_state
      (show (TrackState.init i).next.next.next.kind = .finished from rfl)]
    rfl
  · intro i l1 l2 l3 l4 l5 l6 v1 v2 v3 v4 v5 v6 y tt td
      hc1 hc2 hc3 hc4 hp4 hc5 hp5 hc6 hp6
    have hs1 : AlbumOutputBuilder.set_value ⟨i⟩ .artist v1 =
        .ok ⟨⟨some v1, i.album_artist, i.album, i.year, i.total_tracks,
          i.total_discs⟩⟩ := rfl
    have hs2 : AlbumOutputBuilder.set_value
        ⟨⟨some v1, i.album_artist, i.album, i.year, i.total_tracks,
          i.total_discs⟩⟩ .albumArtist v2 =
        .ok ⟨⟨some v1, some v2, i.album, i.year, i.total_tracks,
          i.total_discs⟩⟩ := rfl
    have hs3 : AlbumOutputBuilder.set_value
        ⟨⟨some v1, some v2, i.album, i.year, i.total_tracks,
          i.total_discs⟩⟩ .album v3 =
        .ok ⟨⟨some v1, some v2, some v3, i.year, i.total_tracks,
          i.total_discs⟩⟩ := rfl
    have hs4 : AlbumOutputBuilder.set_value
        ⟨⟨some v1, some v2, some v3, i.year, i.total_tracks,
          i.total_discs⟩⟩ .year v4 =
        .ok ⟨⟨some v1, some v2, some v3, some y, i.total_tracks,
          i.total_discs⟩⟩ := by
      dsimp only [AlbumOutputBuilder.set_value]
      rw [hp4]
    have hs5 : AlbumOutputBuilder.set_value
        ⟨⟨some v1, some v2, some v3, some y, i.total_tracks,
          i.total_discs⟩⟩ .totalTracks v5 =
        .ok ⟨⟨some v1, some v2, some v3, some y, some tt,
          i.total_discs⟩⟩ := by
      dsimp only [AlbumOutputBuilder.set_value]
      rw [hp5]
    have hs6 : AlbumOutputBuilder.set_value
        ⟨⟨some v1, some v2, some v3, some y, some tt,
          i.total_discs⟩⟩ .totalDiscs v6 =
        .ok ⟨⟨some v1, some v2, some v3, some y, some tt, some td⟩⟩ := by
      dsimp only [AlbumOutputBuilder.set_value]
      rw [hp6]
    rw [runAlbumEditor]
    rw [runAlbum_read_data_ok
      (show (AlbumState.init i).get_input =
        .read .artist (.ofOption i.artist) from rfl) hc1 hs1]
    rw [runAlbum_read_data_ok
      (show (AlbumState.init i).next.get_input =
        .read .albumArtist (.ofOption i.album_artist) from rfl) hc2 hs2]
    rw [runAlbum_read_data_ok
      (show (AlbumState.init i).next.next.get_input =
        .read .album (.ofOption i.album) from rfl) hc3 hs3]
    rw [runAlbum_read_data_ok
      (show (AlbumState.init i).next.next.next.get_input =
        .read .year (.ofOption i.year) from rfl) hc4 hs4]
    rw [runAlbum_read_data_ok
      (show (AlbumState.init i).next.next.next.next.get_input =
        .read .totalTracks (.ofOption i.total_tracks) from rfl) hc5 hs5]
    rw [runAlbum_read_data_ok
      (show (AlbumState.init i).next.next.next.next.next.get_input =
        .read .totalDiscs (.ofOption i.total_discs) from rfl) hc6 hs6]
    rw [runAlbum_finished_state
      (show (AlbumState.init i).next.next.next.next.next.next.kind =
        .finished from rfl)]
    rfl

/-- C1 witness: the track session `["7", "2", "Echoes"]` and the album
session `["Pink Floyd", "Pink Floyd", "Meddle", "1971", "6", "1"]`, both
seeded empty, finish in exactly 3 and 6 prompts with exactly the supplied
values. -/
theorem claim_C1_forward_completion_witness :
    classify "7" = .data "7" ∧ parseU32 "7" = .ok 7 ∧
    classify "1971" = .data "1971" ∧ parseI32 "1971" = .ok 1971 ∧
    runTrackEditor emptyTrackInput [.line "7", .line "2", .line "Echoes"] =
      ⟨.finished ⟨7, 2, "Echoes"⟩,
       [(.trackNumber, ⟨"", ""⟩), (.discNumber, ⟨"", ""⟩),
        (.title, ⟨"", ""⟩)], true⟩ ∧
    runAlbumEditor emptyAlbumInput
        [.line "Pink Floyd", .line "Pink Floyd", .line "Meddle",
         .line "1971", .line "6", .line "1"] =
      ⟨.finished ⟨"Pink Floyd", "Pink Floyd", "Meddle", 1971, 6, 1⟩,
       [(.artist, ⟨"", ""⟩), (.albumArtist, ⟨"", ""⟩), (.album, ⟨"", ""⟩),
        (.year, ⟨"", ""⟩), (.totalTracks, ⟨"", ""⟩),
        (.totalDiscs, ⟨"", ""⟩)], true⟩ :=
  ⟨by decide, rfl, by decide, rfl,
   claim_C1_forward_completion.1 emptyTrackInput "7" "2" "Echoes"
     "7" "2" "Echoes" 7 2 (by decide) rfl (by decide) rfl (by decide),
   claim_C1_forward_completion.2 emptyAlbumInput
     "Pink Floyd" "Pink Floyd" "Meddle" "1971" "6" "1"
     "Pink Floyd" "Pink Floyd" "Meddle" "1971" "6" "1" 1971 6 1
     (by decide) (by decide) (by decide) (by decide) rfl
     (by decide) rfl (by decide) rfl⟩

/-! ## Counter lemmas (for C8) -/

/-- First-match count of a value in an inner counter map (0 when absent). -/
def countOf {V : Type} [DecidableEq V] : List (V × Nat) → V → Nat
  | [], _ => 0
  | (w, c) :: rest, v => if w = v then c else countOf rest v

theorem bumpCount_ne_nil {V : Type} [DecidableEq V] (m : List (V × Nat))
    (v : V) : bumpCount m v ≠ [] := by
  cases m with
  | nil => simp [bumpCount]
  | cons q rest =>
    obtain ⟨w, c⟩ := q
    by_cases hw : w = v <;> simp [bumpCount, hw]

theorem countOf_bumpCount_self {V : Type} [DecidableEq V]
    (m : List (V × Nat)) (v : V) :
    countOf (bumpCount m v) v = incU32 (countOf m v) := by
  induction m with
  | nil => simp [bumpCount, countOf]
  | cons q rest ih =>
    obtain ⟨w, c⟩ := q
    by_cases hw : w = v
    · subst hw
      simp [bumpCount, countOf]
    · simp [bumpCount, countOf, hw, ih]

theorem countOf_bumpCount_ne {V : Type} [DecidableEq V]
    (m : List (V × Nat)) (v w : V) (hw : w ≠ v) :
    countOf (bumpCount m v) w = countOf m w := by
  induction m with
  | nil => simp [bumpCount, countOf, Ne.symm hw]
  | cons q rest ih =>
    obtain ⟨u, c⟩ := q
    by_cases hu : u = v
    · subst hu
      simp [bumpCount, countOf, Ne.symm hw]
    · simp [bumpCount, countOf, hu, ih]

theorem keys_bumpCount {V : Type} [DecidableEq V] (m : List (V × Nat))
    (v : V) :
    (bumpCount m v).map Prod.fst =
      if v ∈ m.map Prod.fst then m.map Prod.fst
      else m.map Prod.fst ++ [v] := by
  induction m with
  | nil => simp [bumpCount]
  | cons q rest ih =>
    obtain ⟨w, c⟩ := q
    by_cases hw : w = v
    · subst hw
      simp [bumpCount]
    · by_cases hv : v ∈ rest.map Prod.fst <;>
        simp [bumpCount, hw, Ne.symm hw, hv, ih]

theorem nodup_keys_bumpCount {V : Type} [DecidableEq V]
    {m : List (V × Nat)} (v : V)
    (h : (m.map Prod.fst).Nodup) : ((bumpCount m v).map Prod.fst).Nodup := by
  rw [keys_bumpCount]
  split_ifs with hv
  · exact h
  · simp [List.nodup_append, h, hv]

theorem exists_mem_iff_mem_keys {V : Type} {m : List (V × Nat)} {u : V} :
    (∃ c, (u, c) ∈ m) ↔ u ∈ m.map Prod.fst := by
  constructor
  · rintro ⟨c, hc⟩
    exact List.mem_map_of_mem Prod.fst hc
  · intro h
    rw [List.mem_map] at h
    obtain ⟨a, ha, hfst⟩ := h
    obtain ⟨a1, a2⟩ := a
    dsimp only at hfst
    subst hfst
    exact ⟨a2, ha⟩

theorem mem_keys_bumpCount_iff {V : Type} [DecidableEq V]
    {m : List (V × Nat)} {v u : V} :
    u ∈ (bumpCount m v).map Prod.fst ↔ u ∈ m.map Prod.fst ∨ u = v := by
  rw [keys_bumpCount]
  split_ifs with hv
  · constructor
    · exact Or.inl
    · rintro (h | h)
      · exact h
      · exact h ▸ hv
  · simp [List.mem_append]

theorem countOf_entry {V : Type} [DecidableEq V] {m : List (V × Nat)}
    (hnd : (m.map Prod.fst).Nodup) :
    ∀ q ∈ m, countOf m q.1 = q.2 := by
  induction m with
  | nil => simp
  | cons p rest ih =>
    obtain ⟨w, c⟩ := p
    simp only [List.map_cons, List.nodup_cons] at hnd
    intro q hq
    rcases List.mem_cons.mp hq with hq | hq
    · subst hq
      simp [countOf]
    · have hmem : q.1 ∈ rest.map Prod.fst := List.mem_map_of_mem Prod.fst hq
      have hw : w ≠ q.1 := by
        intro he
        exact hnd.1 (he ▸ hmem)
      dsimp only [countOf]
      rw [if_neg hw]
      exact ih hnd.2 q hq

theorem countOf_pos_mem {V : Type} [DecidableEq V] {m : List (V × Nat)}
    {v : V} (h : 0 < countOf m v) : (v, countOf m v) ∈ m := by
  induction m with
  | nil => simp [countOf] at h
  | cons p rest ih =>
    obtain ⟨w, c⟩ := p
    by_cases hw : w = v
    · subst hw
      have hc : countOf ((w, c) :: rest) w = c := by simp [countOf]
      rw [hc] at h ⊢
      exact List.mem_cons_self _ _
    · have hc : countOf ((w, c) :: rest) v = countOf rest v := by
        simp [countOf, hw]
      rw [hc] at h ⊢
      exact List.mem_cons_of_mem _ (ih h)

theorem bestEntry_go {V : Type} (m : List (V × Nat)) :
    ∀ a : V × Nat,
      ∃ r, m.foldl
          (fun acc p =>
            match acc with
            | none => some p
            | some q => if q.2 ≤ p.2 then some p else some q) (some a) =
        some r ∧ (r = a ∨ r ∈ m) ∧ a.2 ≤ r.2 ∧ ∀ q ∈ m, q.2 ≤ r.2 := by
  induction m with
  | nil => exact fun a => ⟨a, rfl, Or.inl rfl, le_refl _, by simp⟩
  | cons x xs ih =>
    intro a
    by_cases hx : a.2 ≤ x.2
    · obtain ⟨r, hr, hmem, hle, hmax⟩ := ih x
      refine ⟨r, ?_, ?_, le_trans hx hle, ?_⟩
      · rw [List.foldl_cons]
        dsimp only
        rw [if_pos hx]
        exact hr
      · rcases hmem with h | h
        · exact Or.inr (h ▸ List.mem_cons_self x xs)
        · exact Or.inr (List.mem_cons_of_mem _ h)
      · intro q hq
        rcases List.mem_cons.mp hq with h | h
        · subst h
          exact hle
        · exact hmax q h
    · obtain ⟨r, hr, hmem, hle, hmax⟩ := ih a
      refine ⟨r, ?_, ?_, hle, ?_⟩
      · rw [List.foldl_cons]
        dsimp only
        rw [if_neg hx]
        exact hr
      · rcases hmem with h | h
        · exact Or.inl h
        · exact Or.inr (List.mem_cons_of_mem _ h)
      · intro q hq
        rcases List.mem_cons.mp hq with h | h
        · subst h
          exact le_trans (le_of_not_le hx) hle
        · exact hmax q h

theorem bestEntry_spec {V : Type} {m : List (V × Nat)} (h : m ≠ []) :
    ∃ r, bestEntry m = some r ∧ r ∈ m ∧ ∀ q ∈ m, q.2 ≤ r.2 := by
  cases m with
  | nil => exact absurd rfl h
  | cons x xs =>
    obtain ⟨r, hr, hmem, hle, hmax⟩ := bestEntry_go xs x
    refine ⟨r, ?_, ?_, ?_⟩
    · unfold bestEntry
      rw [List.foldl_cons]
      exact hr
    · rcases hmem with h2 | h2
      · exact h2 ▸ List.mem_cons_self x xs
      · exact List.mem_cons_of_mem _ h2
    · intro q hq
      rcases List.mem_cons.mp hq with h2 | h2
      · subst h2
        exact hle
      · exact hmax q h2

theorem lookupKey_insertItems_self {K V : Type} [DecidableEq K]
    [DecidableEq V] (items : List (K × List (V × Nat))) (k : K) (v : V) :
    lookupKey (insertItems items k v) k =
      some (bumpCount ((lookupKey items k).getD []) v) := by
  induction items with
  | nil => simp [insertItems, lookupKey, bumpCount, incU32]
  | cons p rest ih =>
    obtain ⟨a, m⟩ := p
    by_cases hk : a = k
    · subst hk
      simp [insertItems, lookupKey]
    · simp [insertItems, lookupKey, hk, ih]

theorem lookupKey_insertItems_ne {K V : Type} [DecidableEq K] [DecidableEq V]
    (items : List (K × List (V × Nat))) (j : K) (v : V) (k : K)
    (h : k ≠ j) :
    lookupKey (insertItems items j v) k = lookupKey items k := by
  induction items with
  | nil => simp [insertItems, lookupKey, Ne.symm h]
  | cons p rest ih =>
    obtain ⟨a, m⟩ := p
    by_cases hk : a = j
    · subst hk
      simp [insertItems, lookupKey, Ne.symm h]
    · by_cases hk2 : a = k <;> simp [insertItems, lookupKey, hk, hk2, h, ih]

/-- Invariant tying a counter built from an insertion list to that list: for
each key, either the key was never inserted (and all its insertion counts are
zero), or its inner map is a nonempty, key-unique association list holding
exactly the values inserted under the key, whose recorded (wrapping `u32`)
counts are the insertion counts modulo `2^32`. -/
def counterWF {K V : Type} [DecidableEq K] [DecidableEq V]
    (l : List (K × V)) (c : Counter K V) : Prop :=
  ∀ k : K,
    match lookupKey c.items k with
    | none => ∀ v, countKV l k v = 0
    | some m =>
        m ≠ [] ∧ (m.map Prod.fst).Nodup ∧
        (∀ v, (∃ c0, (v, c0) ∈ m) ↔ 0 < countKV l k v) ∧
        ∀ v, countOf m v = countKV l k v % 2 ^ 32

theorem countKV_append_single {K V : Type} [DecidableEq K] [DecidableEq V]
    (l : List (K × V)) (j : K) (u : V) (k : K) (v : V) :
    countKV (l ++ [(j, u)]) k v =
      countKV l k v + (if j = k ∧ u = v then 1 else 0) := by
  simp [countKV, List.countP_append, List.countP_cons]

theorem counterWF_insert {K V : Type} [DecidableEq K] [DecidableEq V]
    {l : List (K × V)} {c : Counter K V} (h : counterWF l c) (j : K)
    (u : V) : counterWF (l ++ [(j, u)]) (c.insert j u) := by
  intro k
  by_cases hk : k = j
  · subst hk
    have hl : lookupKey (Counter.insert c k u).items k =
        some (bumpCount ((lookupKey c.items k).getD []) u) :=
      lookupKey_insertItems_self c.items k u
    rw [hl]
    have hwk := h k
    rcases hlk : lookupKey c.items k with _ | m
    · rw [hlk] at hwk
      dsimp only [Option.getD] at hwk ⊢
      refine ⟨by simp [bumpCount], by simp [bumpCount], ?_, ?_⟩
      · intro v
        rw [countKV_append_single, hwk v]
        constructor
        · rintro ⟨c0, hc0⟩
          simp [bumpCount] at hc0
          rcases hc0 with ⟨hvu, _⟩
          subst hvu
          simp
        · intro hpos
          by_cases hv : u = v
          · subst hv
            exact ⟨incU32 0, by simp [bumpCount]⟩
          · simp [hv] at hpos
      · intro v
        rw [countKV_append_single, hwk v]
        by_cases hv : u = v
        · subst hv
          simp [bumpCount, countOf, incU32]
        · simp [bumpCount, countOf, hv, Ne.symm hv]
    · rw [hlk] at hwk
      dsimp only [Option.getD] at hwk ⊢
      obtain ⟨hne, hnd, hexm, hcnt⟩ := hwk
      refine ⟨bumpCount_ne_nil m u, nodup_keys_bumpCount u hnd, ?_, ?_⟩
      · intro v
        rw [countKV_append_single]
        rw [exists_mem_iff_mem_keys, mem_keys_bumpCount_iff,
          ← exists_mem_iff_mem_keys, hexm v]
        by_cases hv : v = u
        · subst hv
          simp
        · have hcond : ¬(k = k ∧ u = v) := fun hh => hv hh.2.symm
          rw [if_neg hcond]
          simp [hv]
      · intro v
        rw [countKV_append_single]
        by_cases hv : v = u
        · subst hv
          rw [countOf_bumpCount_self, hcnt v]
          rw [if_pos ⟨rfl, rfl⟩]
          rw [incU32, Nat.mod_add_mod]
        · rw [countOf_bumpCount_ne m u v hv, hcnt v]
          have hcond : ¬(k = k ∧ u = v) := fun hh => hv hh.2.symm
          rw [if_neg hcond, Nat.add_zero]
  · have hl : lookupKey (Counter.insert c j u).items k = lookupKey c.items k :=
      lookupKey_insertItems_ne c.items j u k hk
    rw [hl]
    have hwk := h k
    have hcond : ∀ v : V, ¬(j = k ∧ u = v) := fun v hh => hk hh.1.symm
    rcases hlk : lookupKey c.items k with _ | m <;> rw [hlk] at hwk <;>
      dsimp only at hwk ⊢
    · intro v
      rw [countKV_append_single, hwk v, if_neg (hcond v)]
    · obtain ⟨hne, hnd, hexm, hcnt⟩ := hwk
      refine ⟨hne, hnd, fun v => ?_, fun v => ?_⟩
      · rw [countKV_append_single, if_neg (hcond v), Nat.add_zero]
        exact hexm v
      · rw [countKV_append_single, if_neg (hcond v), Nat.add_zero, hcnt v]

theorem counterWF_ofList {K V : Type} [DecidableEq K] [DecidableEq V]
    (l : List (K × V)) : counterWF l (Counter.ofList l) := by
  induction l using List.reverseRecOn with
  | nil =>
    intro k
    show (∀ v, countKV ([] : List (K × V)) k v = 0)
    intro v
    simp [countKV]
  | append_singleton xs p ih =>
    obtain ⟨j, u⟩ := p
    have he : Counter.ofList (xs ++ [(j, u)]) =
        (Counter.ofList xs).insert j u := by
      simp [Counter.ofList, List.foldl_append]
    rw [he]
    exact counterWF_insert ih j u

theorem countKV_pos_iff {K V : Type} [DecidableEq K] [DecidableEq V]
    {l : List (K × V)} {k : K} {v : V} :
    0 < countKV l k v ↔ (k, v) ∈ l := by
  constructor
  · intro h
    rw [countKV, List.countP_pos_iff] at h
    obtain ⟨a, ha, hpa⟩ := h
    simp at hpa
    obtain ⟨a1, a2⟩ := a
    simp at hpa
    rw [hpa.1, hpa.2] at ha
    exact ha
  · intro h
    rw [countKV, List.countP_pos_iff]
    exact ⟨(k, v), h, by simp⟩

/-- C8: for every category and insertion sequence, `most_common` returns a
value of maximal recorded count among the values inserted under that category
(the recorded count is the wrapping `u32` count, i.e. the insertion count
modulo `2^32`, and equals the insertion count whenever no per-value count
overflows), and returns nothing exactly when the category was never observed;
in particular, inserting Pink Floyd twice and Genesis once under the artist
category makes Pink Floyd the most common value. -/
theorem claim_C8_most_common_max :
    (∀ (K V : Type) [DecidableEq K] [DecidableEq V]
        (l : List (K × V)) (k : K),
      ((Counter.ofList l).most_common k = none ↔ ∀ p ∈ l, p.1 ≠ k) ∧
      (∀ v, (Counter.ofList l).most_common k = some v →
        (k, v) ∈ l ∧
        (∀ w, countKV l k w % 2 ^ 32 ≤ countKV l k v % 2 ^ 32) ∧
        ((∀ w, countKV l k w < 2 ^ 32) →
          ∀ w, countKV l k w ≤ countKV l k v))) ∧
    (Counter.ofList [(AlbumKey.artist, "Pink Floyd"),
        (AlbumKey.artist, "Pink Floyd"),
        (AlbumKey.artist, "Genesis")]).most_common AlbumKey.artist =
      some "Pink Floyd" := by
  constructor
  · intro K V _ _ l k
    have hwf := counterWF_ofList l k
    rcases hlk : lookupKey (Counter.ofList l).items k with _ | m
    · rw [hlk] at hwf
      dsimp only at hwf
      have hmc : (Counter.ofList l).most_common k = none := by
        simp [Counter.most_common, hlk]
      constructor
      · rw [hmc]
        constructor
        · intro _ p hp hpk
          obtain ⟨p1, p2⟩ := p
          dsimp only at hpk
          subst hpk
          have h0 : 0 < countKV l p1 p2 := countKV_pos_iff.mpr hp
          rw [hwf p2] at h0
          exact absurd h0 (lt_irrefl 0)
        · intro _
          rfl
      · intro v hv
        rw [hmc] at hv
        exact absurd hv (by simp)
    · rw [hlk] at hwf
      dsimp only at hwf
      obtain ⟨hne, hnd, hexm, hcnt⟩ := hwf
      obtain ⟨r, hbe, hrmem, hrmax⟩ := bestEntry_spec hne
      have hmc : (Counter.ofList l).most_common k = some r.1 := by
        simp [Counter.most_common, hlk, hbe]
      have hrcnt : countOf m r.1 = r.2 := countOf_entry hnd r hrmem
      have hkv : 0 < countKV l k r.1 := (hexm r.1).mp ⟨r.2, hrmem⟩
      constructor
      · rw [hmc]
        constructor
        · intro hcontra
          exact absurd hcontra (by simp)
        · intro hall
          exfalso
          exact hall (k, r.1) (countKV_pos_iff.mp hkv) rfl
      · intro v hv
        rw [hmc] at hv
        injection hv with h2
        subst h2
        have hmax : ∀ w, countKV l k w % 2 ^ 32 ≤ countKV l k r.1 % 2 ^ 32 := by
          intro w
          rw [← hcnt w, ← hcnt r.1, hrcnt]
          by_cases hw : 0 < countOf m w
          · exact hrmax _ (countOf_pos_mem hw)
          · rw [Nat.eq_zero_of_not_pos hw]
            exact Nat.zero_le _
        refine ⟨countKV_pos_iff.mp hkv, hmax, ?_⟩
        intro hlt w
        have hw := hmax w
        rwa [Nat.mod_eq_of_lt (hlt w), Nat.mod_eq_of_lt (hlt r.1)] at hw
  · decide

/-- C8 witness: for the Pink Floyd / Genesis insertion list, the returned
most-common value is among the inserted pairs and its recorded count (2) is
maximal; no count overflows, so the same holds for the plain insertion
counts. -/
theorem claim_C8_most_common_max_witness :
    (Counter.ofList [(AlbumKey.artist, "Pink Floyd"),
        (AlbumKey.artist, "Pink Floyd"),
        (AlbumKey.artist, "Genesis")]).most_common AlbumKey.artist =
      some "Pink Floyd" ∧
    (AlbumKey.artist, "Pink Floyd") ∈
      [(AlbumKey.artist, "Pink Floyd"), (AlbumKey.artist, "Pink Floyd"),
       (AlbumKey.artist, "Genesis")] ∧
    countKV [(AlbumKey.artist, "Pink Floyd"),
        (AlbumKey.artist, "Pink Floyd"), (AlbumKey.artist, "Genesis")]
        AlbumKey.artist "Genesis" % 2 ^ 32 ≤
      countKV [(AlbumKey.artist, "Pink Floyd"),
        (AlbumKey.artist, "Pink Floyd"), (AlbumKey.artist, "Genesis")]
        AlbumKey.artist "Pink Floyd" % 2 ^ 32 ∧
    countKV [(AlbumKey.artist, "Pink Floyd"),
        (AlbumKey.artist, "Pink Floyd"), (AlbumKey.artist, "Genesis")]
        AlbumKey.artist "Genesis" ≤
      countKV [(AlbumKey.artist, "Pink Floyd"),
        (AlbumKey.artist, "Pink Floyd"), (AlbumKey.artist, "Genesis")]
        AlbumKey.artist "Pink Floyd" :=
  ⟨by decide,
   ((claim_C8_most_common_max.1 AlbumKey String
       [(AlbumKey.artist, "Pink Floyd"), (AlbumKey.artist, "Pink Floyd"),
        (AlbumKey.artist, "Genesis")] AlbumKey.artist).2 "Pink Floyd"
     (by decide)).1,
   ((claim_C8_most_common_max.1 AlbumKey String
       [(AlbumKey.artist, "Pink Floyd"), (AlbumKey.artist, "Pink Floyd"),
        (AlbumKey.artist, "Genesis")] AlbumKey.artist).2 "Pink Floyd"
     (by decide)).2.1 "Genesis",
   ((claim_C8_most_common_max.1 AlbumKey String
       [(AlbumKey.artist, "Pink Floyd"), (AlbumKey.artist, "Pink Floyd"),
        (AlbumKey.artist, "Genesis")] AlbumKey.artist).2 "Pink Floyd"
     (by decide)).2.2
     (fun w => lt_of_le_of_lt (List.countP_le_length _) (by decide))
     "Genesis"⟩
